import Mathlib

/-!
# Approval flows (`flow.go`, `usage/usage.go`)

A shallow embedding of the approval-flow engine.  Go methods become functions
over an explicit `World`: the state of the store behind the `Store` interface,
the log of the store calls issued so far and the log of the step handler
invocations.  A Go `error` is `Option GoError` (`none` is `nil`), a function
that can panic returns a `Result`.
-/

namespace FlowSpec

/-! ## Go values -/

/-- A non-nil Go `error` value. -/
structure GoError where
  msg : String
  deriving DecidableEq, Repr

/-- Outcome of a Go call that either returns a value or panics. -/
inductive Result (α : Type) where
  | returned : α → Result α
  | panicked : GoError → Result α
  deriving DecidableEq, Repr

/-- The constraint `T fmt.Stringer`: `String()` is taken to return. -/
class Stringer (T : Type) where
  String : T → String

/-! ## `slices` (Go standard library, Go 1.22 and later) -/

/-- Go `slices.IndexFunc`: index of the first element satisfying `f`, `none` for -1. -/
def IndexFunc {E : Type} (s : List E) (f : E → Bool) : Option Nat :=
  match s with
  | [] => none
  | x :: xs => if f x then some 0 else (IndexFunc xs f).map (· + 1)

/-- Go `slices.DeleteFunc`.  The first component is the returned slice `s[:i]`,
the second the contents of the backing array of `s` after the call:
the kept elements are moved to the front in place and the obsolete tail is
cleared to `zero`.  When nothing is deleted `s` is returned untouched. -/
def DeleteFunc {E : Type} (zero : E) (s : List E) (del : E → Bool) : List E × List E :=
  match IndexFunc s del with
  | none => (s, s)
  | some i =>
    let kept := s.take i ++ (s.drop (i + 1)).filter (fun v => !del v)
    (kept, kept ++ List.replicate (s.length - kept.length) zero)

/-! ## `flow.go` -/

/-- Go `type stepStatus struct`. -/
structure stepStatus where
  id : String
  rationale : String
  done : Bool
  deriving DecidableEq, Repr

/-- The zero value of `stepStatus`. -/
def stepStatus.zero : stepStatus := ⟨"", "", false⟩

/-- Go `type User interface`. -/
structure User where
  ID : String
  CanHandleFlowStep : String → String → String → Bool

/-- Go `type Store interface`, over a store state `σ`.  `GetSteps` returns the
pair `([]stepStatus, error)`.  The slice it returns is a Go slice: it may
share its backing array with the store.  `stepsWritten flowID object c st` is
the store state once the caller has overwritten, in place, the slice that
`GetSteps flowID object` handed over, so that it holds `c`: the identity
for a store that hands out a copy, a changed ledger for a store that hands
out its own slice. -/
structure Store (σ : Type) where
  EnsureFlow : String → String → List String → σ → Option GoError × σ
  DeleteFlow : String → String → σ → Option GoError × σ
  GetSteps : String → String → σ → (List stepStatus × Option GoError) × σ
  UpdateSteps : List stepStatus → σ → Option GoError × σ
  stepsWritten : String → String → List stepStatus → σ → σ

/-- Go `type Step[T fmt.Stringer] struct`; a nil `Handle` is `none`. -/
structure Step (T : Type) where
  ID : String
  Message : String
  object : T
  Handle : Option (T → Bool → Option GoError)

/-- Go `type Flow[T fmt.Stringer] struct`. -/
structure Flow (σ T : Type) where
  ID : String
  Object : T
  store : Store σ
  steps : List (List (Step T))

/-- One call through the `Store` interface, with its arguments. -/
inductive StoreCall where
  | EnsureFlow (flowID object : String) (steps : List String)
  | DeleteFlow (flowID object : String)
  | GetSteps (flowID object : String)
  | UpdateSteps (statuses : List stepStatus)
  deriving DecidableEq, Repr

/-- One invocation `Handle(object, approved)` of a step handler. -/
structure HandleCall (T : Type) where
  object : T
  approved : Bool
  deriving DecidableEq, Repr

/-- What the engine acts on: the store state and, in call order, the store
calls and handler invocations made so far.  Handlers are host code; they are
taken not to touch the store. -/
structure World (σ T : Type) where
  store : σ
  storeCalls : List StoreCall
  handleCalls : List (HandleCall T)

/-- Go `func Register`. -/
def Register {σ T : Type} (id : String) (st : Store σ) (steps : List (List (Step T))) :
    T → Flow σ T :=
  fun o => { ID := id, Object := o, store := st, steps := steps }

/-- The two nested `for ... range` loops of `Start`, appending each `s.ID`. -/
def Start.stepIDs {T : Type} (steps : List (List (Step T))) : List String :=
  steps.foldl (fun acc ss => ss.foldl (fun acc s => acc ++ [s.ID]) acc) []

/-- Go `func (f Flow[T]) Start() error`. -/
def Flow.Start {σ T : Type} [Stringer T] (f : Flow σ T) (w : World σ T) :
    Option GoError × World σ T :=
  let steps := Start.stepIDs f.steps
  let r := f.store.EnsureFlow f.ID (Stringer.String f.Object) steps w.store
  let w1 : World σ T :=
    { w with store := r.2,
             storeCalls := w.storeCalls ++
               [StoreCall.EnsureFlow f.ID (Stringer.String f.Object) steps] }
  match r.1 with
  | some err => (some err, w1)
  | none => (none, w1)

/-- Go `func (f Flow[T]) Clear() error`. -/
def Flow.Clear {σ T : Type} [Stringer T] (f : Flow σ T) (w : World σ T) :
    Option GoError × World σ T :=
  let r := f.store.DeleteFlow f.ID (Stringer.String f.Object) w.store
  let w1 : World σ T :=
    { w with store := r.2,
             storeCalls := w.storeCalls ++
               [StoreCall.DeleteFlow f.ID (Stringer.String f.Object)] }
  match r.1 with
  | some err => (some err, w1)
  | none => (none, w1)

/-- Go `func (f Flow[T]) InProgress() bool`: panics with the error of `GetSteps`.
`slices.DeleteFunc` works in place on the slice `GetSteps` handed over: when
it changes the contents of that slice, the store sees the new contents
through `stepsWritten`. -/
def Flow.InProgress {σ T : Type} [Stringer T] (f : Flow σ T) (w : World σ T) :
    Result Bool × World σ T :=
  let r := f.store.GetSteps f.ID (Stringer.String f.Object) w.store
  let calls := w.storeCalls ++ [StoreCall.GetSteps f.ID (Stringer.String f.Object)]
  match r.1.2 with
  | some err => (Result.panicked err, { w with store := r.2, storeCalls := calls })
  | none =>
    let d := DeleteFunc stepStatus.zero r.1.1 (fun s => s.done)
    let remaining := d.1
    let st := if d.2 = r.1.1 then r.2
      else f.store.stepsWritten f.ID (Stringer.String f.Object) d.2 r.2
    (Result.returned (decide (remaining.length > 0)),
      { w with store := st, storeCalls := calls })

/-- The contents, once `InProgress()` is over, of the slice `steps` that
`GetSteps` handed to it: `slices.DeleteFunc` works in place on that slice;
on the panic path the slice is not touched. -/
def Flow.InProgressSteps {σ T : Type} [Stringer T] (f : Flow σ T) (w : World σ T) :
    List stepStatus :=
  let r := f.store.GetSteps f.ID (Stringer.String f.Object) w.store
  match r.1.2 with
  | some _ => r.1.1
  | none => (DeleteFunc stepStatus.zero r.1.1 (fun s => s.done)).2

/-- Go `func (Flow[T]) NextSteps() []Step[T]`: returns nil, touches nothing. -/
def Flow.NextSteps {σ T : Type} (_f : Flow σ T) (w : World σ T) :
    List (Step T) × World σ T :=
  ([], w)

/-- Go `func (s Step[T]) Approve(u User, rationale string) error`. -/
def Step.Approve {σ T : Type} (s : Step T) (_u : User) (_rationale : String)
    (w : World σ T) : Option GoError × World σ T :=
  match s.Handle with
  | some h =>
    let w1 : World σ T := { w with handleCalls := w.handleCalls ++ [⟨s.object, true⟩] }
    match h s.object true with
    | some err => (some err, w1)
    | none => (none, w1)
  | none => (none, w)

/-- Go `func (s Step[T]) Reject(u User, rationale string) error`. -/
def Step.Reject {σ T : Type} (s : Step T) (_u : User) (_rationale : String)
    (w : World σ T) : Option GoError × World σ T :=
  match s.Handle with
  | some h =>
    let w1 : World σ T := { w with handleCalls := w.handleCalls ++ [⟨s.object, false⟩] }
    match h s.object false with
    | some err => (some err, w1)
    | none => (none, w1)
  | none => (none, w)

/-! ## A store meeting the Step Ledger Store contract -/

/-- The ledgers of a store, keyed by (flow id, object key). -/
abbrev Ledgers := List ((String × String) × List stepStatus)

/-- The `NotFound` failure kind of the store. -/
def NotFound : GoError := ⟨"not found"⟩

/-- Modelled from the spec: the repository only declares the `Store`
interface and ships no implementation.  This in-memory store follows the
contract of the Step Ledger Store: `EnsureFlow` replaces any prior ledger of
the key wholesale by one pending row per step id, `DeleteFlow` removes the
ledger, `GetSteps` returns the rows of the ledger, `UpdateSteps` replaces the
rows named by the given statuses and leaves the others alone; a missing
ledger is reported as `NotFound`.  `GetSteps` hands out a copy of the rows:
writing to the returned slice does nothing to the store. -/
def memStore : Store Ledgers where
  EnsureFlow := fun flowID object steps st =>
    (none, ((flowID, object), steps.map (fun i => ⟨i, "", false⟩)) ::
      st.filter (fun l => decide (l.1 ≠ (flowID, object))))
  DeleteFlow := fun flowID object st =>
    match st.lookup (flowID, object) with
    | some _ => (none, st.filter (fun l => decide (l.1 ≠ (flowID, object))))
    | none => (some NotFound, st)
  GetSteps := fun flowID object st =>
    match st.lookup (flowID, object) with
    | some rows => ((rows, none), st)
    | none => (([], some NotFound), st)
  UpdateSteps := fun statuses st =>
    (none, st.map (fun l =>
      (l.1, l.2.map (fun row =>
        match statuses.find? (fun u => decide (u.id = row.id)) with
        | some u => u
        | none => row))))
  stepsWritten := fun _ _ _ st => st

/-- Modelled from the spec: the in-memory store again, but with a `GetSteps`
that returns the slice in which the store itself keeps the rows of the
ledger, as `return ledger[key], nil` does in Go: what the caller writes to
that slice is written to the ledger. -/
def sharedStore : Store Ledgers :=
  { memStore with
    stepsWritten := fun flowID object c st =>
      st.map (fun l => if l.1 = (flowID, object) then (l.1, c) else l) }

/-- A world in which no flow was ever started and nothing was called. -/
def World.fresh (T : Type) : World Ledgers T :=
  { store := [], storeCalls := [], handleCalls := [] }

/-! ## `usage/usage.go` -/

/-- Go `type Order struct`. -/
structure Order where
  ID : String
  CRRequired : Bool
  deriving DecidableEq, Repr

/-- The Go type `*Order`; `none` is the nil pointer. -/
abbrev OrderPtr := Option Order

/-- Go `func (o Order) String() string`, called through `*Order`.  Go panics on
the nil pointer; every order bound below is non-nil. -/
instance : Stringer OrderPtr where
  String := fun o =>
    match o with
    | some v => v.ID
    | none => ""

/-- The step `step-1` of the `CR` literal.  The unexported field `object`
cannot be set from package `usage`: it holds the zero value of `*Order`. -/
def step1 : Step OrderPtr :=
  { ID := "step-1", Message := "This is a message to be displayed to users",
    object := none, Handle := some (fun _ _ => none) }

/-- The step `step-2` of the `CR` literal, without handler. -/
def step2 : Step OrderPtr :=
  { ID := "step-2", Message := "This is a message to be displayed to users",
    object := none, Handle := none }

/-- The step `step-3` of the `CR` literal. -/
def step3 : Step OrderPtr :=
  { ID := "step-3", Message := "This is a message to be displayed to users",
    object := none, Handle := some (fun _ _ => none) }

/-- The step `step-4` of the `CR` literal, without handler. -/
def step4 : Step OrderPtr :=
  { ID := "step-4", Message := "This is a message to be displayed to users",
    object := none, Handle := none }

/-- The stages literal passed to `flow.Register` for `CR`. -/
def CRstages : List (List (Step OrderPtr)) :=
  [[step1], [step2, step3], [step4]]

/-- Go `var CR = flow.Register("CR", st, ...)`, over a given store. -/
def CR {σ : Type} (st : Store σ) : OrderPtr → Flow σ OrderPtr :=
  Register "CR" st CRstages

/-- The order `O1` of the concrete scenario. -/
def O1 : OrderPtr := some { ID := "O1", CRRequired := true }

/-- A user the Authorization Gate accepts for every step. -/
def alice : User := { ID := "alice", CanHandleFlowStep := fun _ _ _ => true }

/-- A user the Authorization Gate refuses for every step. -/
def mallory : User := { ID := "mallory", CanHandleFlowStep := fun _ _ _ => false }

/-- The `for _, s := range f.NextSteps()` loop of `handleCR` over the steps
still to visit, followed by the final `return errors.New("invalid step " + stepID)`. -/
def handleCR.loop {σ : Type} (f : Flow σ OrderPtr) (stepID : String) (user : User)
    (approved : Bool) (rationale : String) :
    List (Step OrderPtr) → World σ OrderPtr → Option GoError × World σ OrderPtr
  | [], w => (some ⟨"invalid step " ++ stepID⟩, w)
  | s :: rest, w =>
    if s.ID = stepID then
      if !user.CanHandleFlowStep f.ID s.ID (Stringer.String f.Object) then
        (some ⟨"forbidden"⟩, w)
      else
        let r := if approved then s.Approve user rationale w else s.Reject user rationale w
        match r.1 with
        | some err => (some err, r.2)
        | none => handleCR.loop f stepID user approved rationale rest r.2
    else handleCR.loop f stepID user approved rationale rest w

/-- Go `func handleCR(o *Order, stepID string, user flow.User, approved bool,
rationale string) error`, with `CR` registered over the given store. -/
def handleCR {σ : Type} (st : Store σ) (o : OrderPtr) (stepID : String) (user : User)
    (approved : Bool) (rationale : String) (w : World σ OrderPtr) :
    Option GoError × World σ OrderPtr :=
  let f := CR st o
  let ns := f.NextSteps w
  handleCR.loop f stepID user approved rationale ns.1 ns.2

/-! ## Scenario drivers -/

/-- Approving the given steps one after the other as user `u`, each with
rationale `r`: the errors returned, in order, and the world afterwards. -/
def approveAll {σ T : Type} (u : User) (r : String) (ss : List (Step T))
    (w : World σ T) : List (Option GoError) × World σ T :=
  ss.foldl (fun acc s => ((acc.1 ++ [(s.Approve u r acc.2).1]), (s.Approve u r acc.2).2)) ([], w)

/-- The instance of `CR` for `O1` over the in-memory store. -/
def crO1 : Flow Ledgers OrderPtr := CR memStore O1

/-- The world right after `crO1.Start()` on a fresh store. -/
def startedWorld : World Ledgers OrderPtr := (crO1.Start (World.fresh OrderPtr)).2

/-- The rows of a ledger of `CR` in which nothing is resolved. -/
def pendingRows : List stepStatus :=
  [⟨"step-1", "", false⟩, ⟨"step-2", "", false⟩, ⟨"step-3", "", false⟩, ⟨"step-4", "", false⟩]

/-- A world whose `CR` ledger for `O1` has every row done. -/
def completedWorld : World Ledgers OrderPtr :=
  { startedWorld with
    store := (memStore.UpdateSteps
      [⟨"step-1", "ok", true⟩, ⟨"step-2", "ok", true⟩, ⟨"step-3", "ok", true⟩,
       ⟨"step-4", "ok", true⟩] startedWorld.store).2 }

/-- The world after `Start()` then `Clear()` of `crO1`. -/
def clearedWorld : World Ledgers OrderPtr := (crO1.Clear startedWorld).2

/-- The step `a` of the stage-gating example. -/
def stepA : Step OrderPtr := { ID := "a", Message := "", object := none, Handle := none }

/-- The step `b` of the stage-gating example. -/
def stepB : Step OrderPtr := { ID := "b", Message := "", object := none, Handle := none }

/-- The step `c` of the stage-gating example. -/
def stepC : Step OrderPtr := { ID := "c", Message := "", object := none, Handle := none }

/-- A definition with stages `[[a, b], [c]]`, bound to `O1`. -/
def gated : Flow Ledgers OrderPtr :=
  Register "G" memStore [[stepA, stepB], [stepC]] O1

/-- The world right after `gated.Start()` on a fresh store. -/
def gatedWorld : World Ledgers OrderPtr := (gated.Start (World.fresh OrderPtr)).2

/-- A world whose `CR` ledger for `O1` has `step-1` done and the steps of
the later stages pending: the earliest unresolved stage is stage 1. -/
def stage1World : World Ledgers OrderPtr :=
  { startedWorld with
    store := (memStore.UpdateSteps [⟨"step-1", "ok", true⟩] startedWorld.store).2 }

/-- The instance of `CR` for `O1` over the store that hands out its own slices. -/
def sharedO1 : Flow Ledgers OrderPtr := CR sharedStore O1

/-- The rows of a ledger of `CR` in which every step is done. -/
def doneRows : List stepStatus :=
  [⟨"step-1", "ok", true⟩, ⟨"step-2", "ok", true⟩, ⟨"step-3", "ok", true⟩,
    ⟨"step-4", "ok", true⟩]

/-- The error the handler of `vetoStep` returns. -/
def vetoError : GoError := ⟨"order is locked"⟩

/-- A step whose handler refuses every resolution. -/
def vetoStep : Step OrderPtr :=
  { ID := "veto", Message := "", object := none, Handle := some (fun _ _ => some vetoError) }

/-! ## Lemmas on the library functions -/

theorem IndexFunc_none_filter {E : Type} (del : E → Bool) (s : List E)
    (h : IndexFunc s del = none) : s.filter (fun v => !del v) = s := by
  induction s with
  | nil => rfl
  | cons x xs ih =>
    unfold IndexFunc at h
    by_cases hx : del x = true
    · simp [hx] at h
    · simp only [hx, Bool.false_eq_true, if_false, Option.map_eq_none'] at h
      simp [hx, ih h]

theorem IndexFunc_some_filter {E : Type} (del : E → Bool) (s : List E) (i : Nat)
    (h : IndexFunc s del = some i) :
    s.take i ++ (s.drop (i + 1)).filter (fun v => !del v) = s.filter (fun v => !del v) := by
  induction s generalizing i with
  | nil => simp [IndexFunc] at h
  | cons x xs ih =>
    unfold IndexFunc at h
    by_cases hx : del x = true
    · simp only [hx, if_true, Option.some.injEq] at h
      subst h
      simp [hx]
    · simp only [hx, Bool.false_eq_true, if_false, Option.map_eq_some'] at h
      obtain ⟨j, hj, rfl⟩ := h
      simp [hx, ih j hj]

/-- The slice returned by `DeleteFunc` holds the elements not deleted, in order. -/
theorem DeleteFunc_fst {E : Type} (zero : E) (s : List E) (del : E → Bool) :
    (DeleteFunc zero s del).1 = s.filter (fun v => !del v) := by
  unfold DeleteFunc
  cases h : IndexFunc s del with
  | none => simp [IndexFunc_none_filter del s h]
  | some i => simp [IndexFunc_some_filter del s i h]

/-- The loops of `Start` carry an accumulator: they append the ids stage by stage. -/
theorem stepIDs_foldl {T : Type} (steps : List (List (Step T))) (acc : List String) :
    steps.foldl (fun acc ss => ss.foldl (fun acc s => acc ++ [s.ID]) acc) acc =
      acc ++ (steps.map (fun ss => ss.map Step.ID)).flatten := by
  have inner : ∀ (ss : List (Step T)) (a : List String),
      ss.foldl (fun acc s => acc ++ [s.ID]) a = a ++ ss.map Step.ID := by
    intro ss
    induction ss with
    | nil => intro a; simp
    | cons s ss ih => intro a; simp [ih]
  induction steps generalizing acc with
  | nil => simp
  | cons ss rest ih =>
    rw [List.foldl_cons, ih, inner, List.map_cons, List.flatten_cons, List.append_assoc]

/-- The id list `Start` builds is the concatenation of the stages in order. -/
theorem stepIDs_eq_flatten {T : Type} (steps : List (List (Step T))) :
    Start.stepIDs steps = (steps.map (fun ss => ss.map Step.ID)).flatten := by
  unfold Start.stepIDs
  simpa using stepIDs_foldl steps []

/-- What `Start` computes: the error of `EnsureFlow`, and a world holding the
store state `EnsureFlow` produced and one more store call. -/
theorem Start_eq {σ T : Type} [Stringer T] (f : Flow σ T) (w : World σ T) :
    f.Start w =
      ((f.store.EnsureFlow f.ID (Stringer.String f.Object) (Start.stepIDs f.steps) w.store).1,
       { store := (f.store.EnsureFlow f.ID (Stringer.String f.Object)
           (Start.stepIDs f.steps) w.store).2,
         storeCalls := w.storeCalls ++
           [StoreCall.EnsureFlow f.ID (Stringer.String f.Object) (Start.stepIDs f.steps)],
         handleCalls := w.handleCalls }) := by
  unfold Flow.Start
  cases h : (f.store.EnsureFlow f.ID (Stringer.String f.Object)
    (Start.stepIDs f.steps) w.store).1 <;> simp [h]

/-! ## Start and NextSteps -/

/-- C1, evaluated on the code: `Start()` of `CR` for `O1` on a fresh store
returns no error and leaves the four pending rows in the ledger, also when it
is called again on a ledger whose rows are all done; `NextSteps()` then
returns no step at all, although stage 0 of the definition is `[step-1]`. -/
theorem C1_nextSteps_after_start_returns_nothing :
    (crO1.Start (World.fresh OrderPtr)).1 = none ∧
    (memStore.GetSteps "CR" "O1" startedWorld.store).1 = (pendingRows, none) ∧
    (crO1.NextSteps startedWorld).1.map Step.ID = [] ∧
    (crO1.Start completedWorld).1 = none ∧
    (memStore.GetSteps "CR" "O1" (crO1.Start completedWorld).2.store).1 = (pendingRows, none) ∧
    (crO1.NextSteps (crO1.Start completedWorld).2).1.map Step.ID = [] ∧
    crO1.steps.head?.map (fun ss => ss.map Step.ID) = some ["step-1"] := by
  decide

/-! ## Approve and Reject -/

/-- C2, evaluated on the code: on the started instance of `CR` for `O1`, the
authorized user approves `step-1` with rationale "looks good".  `Approve`
returns nil, yet it issued no store call (the only call so far is the
`EnsureFlow` of `Start`), and the row of `step-1` still has `done = false`
and an empty rationale. -/
theorem C2_approve_does_not_persist :
    alice.CanHandleFlowStep "CR" "step-1" "O1" = true ∧
    (step1.Approve alice "looks good" startedWorld).1 = none ∧
    (step1.Approve alice "looks good" startedWorld).2.storeCalls =
      [StoreCall.EnsureFlow "CR" "O1" ["step-1", "step-2", "step-3", "step-4"]] ∧
    (step1.Approve alice "looks good" startedWorld).2.store = startedWorld.store ∧
    (memStore.GetSteps "CR" "O1"
        (step1.Approve alice "looks good" startedWorld).2.store).1.1.head? =
      some ⟨"step-1", "", false⟩ := by
  decide

/-- C3, evaluated on the code: after `Start()` of `CR` for `O1`, the steps
step-1, step-2, step-3, step-4 are approved in this order and every `Approve`
returns nil.  `NextSteps()` is then empty, but `InProgress()` returns true:
no row of the ledger was marked done. -/
theorem C3_all_approved_still_in_progress :
    (crO1.Start (World.fresh OrderPtr)).1 = none ∧
    crO1.steps.flatten.map Step.ID = ["step-1", "step-2", "step-3", "step-4"] ∧
    (approveAll alice "ok" crO1.steps.flatten startedWorld).1 = [none, none, none, none] ∧
    (crO1.InProgress (approveAll alice "ok" crO1.steps.flatten startedWorld).2).1 =
      Result.returned true ∧
    (crO1.NextSteps (approveAll alice "ok" crO1.steps.flatten startedWorld).2).1.map Step.ID
      = [] := by
  decide

/-- C4, as stated, fails: `mallory` is refused by the Authorization Gate for
`step-1` of `CR` on `O1`, yet `Approve` and `Reject` return nil, not a
Forbidden error, and each invokes the handler of the step. -/
theorem C4_unauthorized_not_forbidden :
    mallory.CanHandleFlowStep "CR" "step-1" "O1" = false ∧
    (step1.Approve mallory "no" startedWorld).1 = none ∧
    (step1.Approve mallory "no" startedWorld).2.handleCalls = [⟨none, true⟩] ∧
    (step1.Reject mallory "no" startedWorld).1 = none ∧
    (step1.Reject mallory "no" startedWorld).2.handleCalls = [⟨none, false⟩] := by
  decide

/-- C4, amended: for every user `u` the Authorization Gate refuses and every
rationale, `Approve` and `Reject` make no store call and leave the store, and
so the ledger, unchanged.  They do not consult the gate: the handler of the
step, when there is one, is invoked once with the outcome, and its result is
returned; without a handler nil is returned. -/
theorem C4_unauthorized_leaves_ledger {σ T : Type} (s : Step T) (u : User)
    (flowID objectKey r : String) (w : World σ T)
    (_hu : u.CanHandleFlowStep flowID s.ID objectKey = false) :
    (s.Approve u r w).2.store = w.store ∧
    (s.Approve u r w).2.storeCalls = w.storeCalls ∧
    (s.Reject u r w).2.store = w.store ∧
    (s.Reject u r w).2.storeCalls = w.storeCalls ∧
    (s.Approve u r w).1 = s.Handle.bind (fun h => h s.object true) ∧
    (s.Reject u r w).1 = s.Handle.bind (fun h => h s.object false) ∧
    (s.Approve u r w).2.handleCalls =
      w.handleCalls ++ (if s.Handle.isSome then [⟨s.object, true⟩] else []) ∧
    (s.Reject u r w).2.handleCalls =
      w.handleCalls ++ (if s.Handle.isSome then [⟨s.object, false⟩] else []) := by
  unfold Step.Approve Step.Reject
  cases hH : s.Handle with
  | none => simp
  | some h =>
    cases ht : h s.object true <;> cases hf : h s.object false <;> simp [ht, hf]

/-- The amended C4 at `mallory`, who is refused for `step-1` of `CR` on `O1`. -/
theorem C4_unauthorized_leaves_ledger_witness :
    mallory.CanHandleFlowStep "CR" "step-1" "O1" = false ∧
    (step1.Approve mallory "no" startedWorld).2.store = startedWorld.store ∧
    (step1.Reject mallory "no" startedWorld).2.storeCalls = startedWorld.storeCalls :=
  ⟨by decide,
   (C4_unauthorized_leaves_ledger step1 mallory "CR" "O1" "no" startedWorld (by decide)).1,
   (C4_unauthorized_leaves_ledger step1 mallory "CR" "O1" "no" startedWorld
      (by decide)).2.2.2.1⟩

/-! ## InProgress -/

/-- C5: when `GetSteps` succeeds with the status list `L`, `InProgress()`
returns, and it returns true exactly when some status of `L` has
`done = false`; so it returns false when every status is done and when `L`
is empty. -/
theorem C5_inProgress_iff_pending {σ T : Type} [Stringer T] (f : Flow σ T)
    (w : World σ T) (L : List stepStatus)
    (hL : (f.store.GetSteps f.ID (Stringer.String f.Object) w.store).1 = (L, none)) :
    ∃ b, (f.InProgress w).1 = Result.returned b ∧
      (b = true ↔ ∃ s ∈ L, s.done = false) ∧
      ((∀ s ∈ L, s.done = true) → b = false) ∧
      (L = [] → b = false) := by
  have h1 : (f.store.GetSteps f.ID (Stringer.String f.Object) w.store).1.1 = L := by rw [hL]
  have h2 : (f.store.GetSteps f.ID (Stringer.String f.Object) w.store).1.2 = none := by rw [hL]
  have hiff : (L.filter (fun v => !v.done)).length > 0 ↔ ∃ s ∈ L, s.done = false := by
    show 0 < (L.filter (fun v => !v.done)).length ↔ ∃ s ∈ L, s.done = false
    rw [List.length_pos_iff_exists_mem]
    constructor
    · rintro ⟨a, ha⟩
      rw [List.mem_filter] at ha
      exact ⟨a, ha.1, by simpa using ha.2⟩
    · rintro ⟨a, ha, hd⟩
      exact ⟨a, List.mem_filter.mpr ⟨ha, by simp [hd]⟩⟩
  refine ⟨decide ((L.filter (fun v => !v.done)).length > 0), ?_, ?_, ?_, ?_⟩
  · unfold Flow.InProgress
    simp only [h2, h1, DeleteFunc_fst]
  · rw [decide_eq_true_iff]
    exact hiff
  · intro hall
    rw [decide_eq_false_iff_not, hiff]
    rintro ⟨a, ha, hd⟩
    rw [hall a ha] at hd
    exact Bool.noConfusion hd
  · intro hnil
    subst hnil
    rfl

/-- C5 at the instance of `CR` for `O1` whose ledger rows are all done. -/
theorem C5_inProgress_iff_pending_witness :
    ∃ b, (crO1.InProgress completedWorld).1 = Result.returned b ∧
      (b = true ↔ ∃ s ∈ (memStore.GetSteps "CR" "O1" completedWorld.store).1.1,
        s.done = false) ∧
      ((∀ s ∈ (memStore.GetSteps "CR" "O1" completedWorld.store).1.1, s.done = true) →
        b = false) ∧
      ((memStore.GetSteps "CR" "O1" completedWorld.store).1.1 = [] → b = false) :=
  C5_inProgress_iff_pending crO1 completedWorld
    (memStore.GetSteps "CR" "O1" completedWorld.store).1.1 (by decide)

/-- C6, evaluated on the code: for the never-started instance of `CR` for
`O1` the store reports the missing ledger as `NotFound`, and `InProgress()`
panics with that error instead of returning false; the same happens once
the started instance is cleared. -/
theorem C6_inProgress_panics_on_missing_ledger :
    (memStore.GetSteps "CR" "O1" (World.fresh OrderPtr).store).1 = ([], some NotFound) ∧
    (crO1.InProgress (World.fresh OrderPtr)).1 = Result.panicked NotFound ∧
    (crO1.Clear startedWorld).1 = none ∧
    (memStore.GetSteps "CR" "O1" clearedWorld.store).1 = ([], some NotFound) ∧
    (crO1.InProgress clearedWorld).1 = Result.panicked NotFound := by
  decide

/-! ## Stage gating and empty results of NextSteps -/

/-- C7: whatever the definition and the ledger `L` the store returns, if
some step of stage `N - 1` (with `N ≥ 1`) has a row with `done = false`,
then no step of stage `N` is among the steps `NextSteps()` returns. -/
theorem C7_no_step_of_later_stage {σ T : Type} [Stringer T] (f : Flow σ T)
    (w : World σ T) (L : List stepStatus) (N : Nat) (stagePrev stageN : List (Step T))
    (_hN : 1 ≤ N)
    (_hprev : f.steps[N - 1]? = some stagePrev)
    (_hstage : f.steps[N]? = some stageN)
    (_hL : (f.store.GetSteps f.ID (Stringer.String f.Object) w.store).1 = (L, none))
    (_hopen : ∃ t ∈ stagePrev, ∃ row ∈ L, row.id = t.ID ∧ row.done = false) :
    ∀ s ∈ stageN, s.ID ∉ (f.NextSteps w).1.map Step.ID := by
  intro s _ hmem
  simp [Flow.NextSteps] at hmem

/-- C7 at the stages `[[a, b], [c]]` right after `Start()`: `a` is unresolved
and `c` is not returned. -/
theorem C7_no_step_of_later_stage_witness :
    gated.steps[0]? = some [stepA, stepB] ∧ gated.steps[1]? = some [stepC] ∧
    (memStore.GetSteps "G" "O1" gatedWorld.store).1 =
      ([⟨"a", "", false⟩, ⟨"b", "", false⟩, ⟨"c", "", false⟩], none) ∧
    stepC.ID ∉ (gated.NextSteps gatedWorld).1.map Step.ID :=
  ⟨rfl, rfl, by decide,
   C7_no_step_of_later_stage gated gatedWorld
    [⟨"a", "", false⟩, ⟨"b", "", false⟩, ⟨"c", "", false⟩] 1 [stepA, stepB] [stepC]
    (by decide) rfl rfl (by decide)
    ⟨stepA, List.mem_cons_self _ _, ⟨"a", "", false⟩, List.mem_cons_self _ _, rfl, rfl⟩
    stepC (List.mem_cons_self _ _)⟩

/-- C8: for an instance whose ledger the store reports missing (never
started, or cleared) and for an instance whose ledger rows are all done,
`NextSteps()` returns the empty sequence. -/
theorem C8_nextSteps_empty_when_idle {σ T : Type} [Stringer T] (f : Flow σ T)
    (w : World σ T)
    (_h : (∃ e, (f.store.GetSteps f.ID (Stringer.String f.Object) w.store).1.2 = some e) ∨
      ((f.store.GetSteps f.ID (Stringer.String f.Object) w.store).1.2 = none ∧
        ∀ row ∈ (f.store.GetSteps f.ID (Stringer.String f.Object) w.store).1.1,
          row.done = true)) :
    (f.NextSteps w).1 = [] := by
  rfl

/-- C8 at the never-started, the cleared and the completed instance of `CR`
for `O1`. -/
theorem C8_nextSteps_empty_when_idle_witness :
    (crO1.NextSteps (World.fresh OrderPtr)).1 = [] ∧
    (crO1.NextSteps clearedWorld).1 = [] ∧
    (crO1.NextSteps completedWorld).1 = [] :=
  ⟨C8_nextSteps_empty_when_idle crO1 (World.fresh OrderPtr) (Or.inl ⟨NotFound, by decide⟩),
   C8_nextSteps_empty_when_idle crO1 clearedWorld (Or.inl ⟨NotFound, by decide⟩),
   C8_nextSteps_empty_when_idle crO1 completedWorld (Or.inr (by decide))⟩

/-! ## Start and the store -/

/-- C9: `Start()` adds exactly one store call to the calls made so far, an
`EnsureFlow` with the flow id, the string key of the object and the step ids
of the stages concatenated in stage order, each stage in definition order;
that list has as many entries as the definition has steps. -/
theorem C9_start_calls_ensureFlow_once {σ T : Type} [Stringer T] (f : Flow σ T)
    (w : World σ T) :
    (f.Start w).2.storeCalls = w.storeCalls ++
      [StoreCall.EnsureFlow f.ID (Stringer.String f.Object)
        (f.steps.map (fun ss => ss.map Step.ID)).flatten] ∧
    ((f.steps.map (fun ss => ss.map Step.ID)).flatten).length =
      (f.steps.map List.length).sum := by
  constructor
  · rw [Start_eq, stepIDs_eq_flatten]
  · rw [List.length_flatten, List.map_map]
    congr 1
    apply List.map_congr_left
    intro ss _
    simp

/-- C10: the error `Start()` returns is the one `EnsureFlow` returned (nil
when it returned nil, the same error otherwise); the store is left in the
state `EnsureFlow` produced, that call is the only store call added, and no
handler is invoked. -/
theorem C10_start_returns_ensureFlow_error {σ T : Type} [Stringer T] (f : Flow σ T)
    (w : World σ T) :
    (f.Start w).1 =
      (f.store.EnsureFlow f.ID (Stringer.String f.Object) (Start.stepIDs f.steps) w.store).1 ∧
    (f.Start w).2.store =
      (f.store.EnsureFlow f.ID (Stringer.String f.Object) (Start.stepIDs f.steps) w.store).2 ∧
    (f.Start w).2.storeCalls = w.storeCalls ++
      [StoreCall.EnsureFlow f.ID (Stringer.String f.Object) (Start.stepIDs f.steps)] ∧
    (f.Start w).2.handleCalls = w.handleCalls := by
  rw [Start_eq]
  exact ⟨rfl, rfl, rfl, rfl⟩

/-! ## Lemmas on Clear, Approve, Reject and the loop of handleCR -/

/-- What `Clear` computes: the error of `DeleteFlow`, and a world holding the
store state `DeleteFlow` produced and one more store call. -/
theorem Clear_eq {σ T : Type} [Stringer T] (f : Flow σ T) (w : World σ T) :
    f.Clear w =
      ((f.store.DeleteFlow f.ID (Stringer.String f.Object) w.store).1,
       { store := (f.store.DeleteFlow f.ID (Stringer.String f.Object) w.store).2,
         storeCalls := w.storeCalls ++
           [StoreCall.DeleteFlow f.ID (Stringer.String f.Object)],
         handleCalls := w.handleCalls }) := by
  unfold Flow.Clear
  cases h : (f.store.DeleteFlow f.ID (Stringer.String f.Object) w.store).1 <;> simp [h]

/-- What `Approve` computes: the result of the handler, if any, and a world
that differs only by the logged handler invocation. -/
theorem Approve_eq {σ T : Type} (s : Step T) (u : User) (r : String) (w : World σ T) :
    s.Approve u r w =
      (s.Handle.bind (fun h => h s.object true),
       { store := w.store, storeCalls := w.storeCalls,
         handleCalls := w.handleCalls ++
           (if s.Handle.isSome then [⟨s.object, true⟩] else []) }) := by
  unfold Step.Approve
  cases hH : s.Handle with
  | none => simp
  | some h => cases ht : h s.object true <;> simp [ht]

/-- What `Reject` computes: the result of the handler, if any, and a world
that differs only by the logged handler invocation. -/
theorem Reject_eq {σ T : Type} (s : Step T) (u : User) (r : String) (w : World σ T) :
    s.Reject u r w =
      (s.Handle.bind (fun h => h s.object false),
       { store := w.store, storeCalls := w.storeCalls,
         handleCalls := w.handleCalls ++
           (if s.Handle.isSome then [⟨s.object, false⟩] else []) }) := by
  unfold Step.Reject
  cases hH : s.Handle with
  | none => simp
  | some h => cases ht : h s.object false <;> simp [ht]

/-- The loop of `handleCR` has no path returning nil. -/
theorem handleCR_loop_ne_none {σ : Type} (f : Flow σ OrderPtr) (stepID : String)
    (user : User) (approved : Bool) (rationale : String) (ns : List (Step OrderPtr))
    (w : World σ OrderPtr) :
    (handleCR.loop f stepID user approved rationale ns w).1 ≠ none := by
  induction ns generalizing w with
  | nil => simp [handleCR.loop]
  | cons s rest ih =>
    unfold handleCR.loop
    by_cases hid : s.ID = stepID
    · by_cases hu : user.CanHandleFlowStep f.ID s.ID (Stringer.String f.Object) = true
      · simp only [hid, if_true]
        rw [hid] at hu
        simp only [hu, Bool.not_true, Bool.false_eq_true, if_false]
        split
        · simp
        · exact ih _
      · simp [hid, hu]
        rw [hid] at hu
        simp [hu]
    · simp only [hid, if_false]
      exact ih _

/-! ## Clear -/

/-- C11, evaluated on the code: over a store that reports a missing ledger
as `NotFound`, `Clear()` on the never-started instance of `CR` for `O1`
returns that `NotFound` error instead of nil, the store staying without
ledger; on the started instance a first `Clear()` returns nil and removes
the ledger, and a second `Clear()` returns `NotFound`, the store staying as
the first left it. -/
theorem C11_clear_reports_notFound :
    (memStore.DeleteFlow "CR" "O1" (World.fresh OrderPtr).store).1 = some NotFound ∧
    (crO1.Clear (World.fresh OrderPtr)).1 = some NotFound ∧
    (crO1.Clear (World.fresh OrderPtr)).2.store = [] ∧
    (crO1.Clear startedWorld).1 = none ∧
    (crO1.Clear startedWorld).2.store = [] ∧
    (crO1.Clear (crO1.Clear startedWorld).2).1 = some NotFound ∧
    (crO1.Clear (crO1.Clear startedWorld).2).2.store = (crO1.Clear startedWorld).2.store := by
  decide

/-! ## Handlers -/

/-- C12: when the handler of a step returns an error for the approval
(resp. the rejection), `Approve` (resp. `Reject`) returns that very error,
makes no store call and leaves the store, hence the row of the step and the
state of the flow, as they were. -/
theorem C12_handler_error_aborts {σ T : Type} (s : Step T) (u : User) (r : String)
    (w : World σ T) (h : T → Bool → Option GoError) (eA eR : GoError)
    (hH : s.Handle = some h)
    (hA : h s.object true = some eA) (hR : h s.object false = some eR) :
    (s.Approve u r w).1 = some eA ∧
    (s.Approve u r w).2.store = w.store ∧
    (s.Approve u r w).2.storeCalls = w.storeCalls ∧
    (s.Reject u r w).1 = some eR ∧
    (s.Reject u r w).2.store = w.store ∧
    (s.Reject u r w).2.storeCalls = w.storeCalls := by
  rw [Approve_eq, Reject_eq]
  simp [hH, hA, hR]

/-- C12 at a step whose handler refuses, on the started instance of `CR`:
the ledger still holds the four pending rows. -/
theorem C12_handler_error_aborts_witness :
    (vetoStep.Approve alice "ok" startedWorld).1 = some vetoError ∧
    (vetoStep.Approve alice "ok" startedWorld).2.store = startedWorld.store ∧
    (vetoStep.Approve alice "ok" startedWorld).2.storeCalls = startedWorld.storeCalls ∧
    (vetoStep.Reject alice "ok" startedWorld).1 = some vetoError ∧
    (vetoStep.Reject alice "ok" startedWorld).2.store = startedWorld.store ∧
    (vetoStep.Reject alice "ok" startedWorld).2.storeCalls = startedWorld.storeCalls :=
  C12_handler_error_aborts vetoStep alice "ok" startedWorld (fun _ _ => some vetoError)
    vetoError vetoError rfl rfl rfl

/-- C13: for an authorized user, `Approve` on a step with a handler adds
exactly one handler invocation, with the object of the step and
`approved = true`, and `Reject` exactly one with `approved = false`; on a
step without handler both return nil and invoke nothing. -/
theorem C13_handler_invoked_once {σ T : Type} (s : Step T) (u : User)
    (flowID objectKey r : String) (w : World σ T)
    (_hauth : u.CanHandleFlowStep flowID s.ID objectKey = true) :
    (s.Handle.isSome = true →
      (s.Approve u r w).2.handleCalls = w.handleCalls ++ [⟨s.object, true⟩] ∧
      (s.Reject u r w).2.handleCalls = w.handleCalls ++ [⟨s.object, false⟩]) ∧
    (s.Handle = none →
      (s.Approve u r w).1 = none ∧ (s.Reject u r w).1 = none ∧
      (s.Approve u r w).2.handleCalls = w.handleCalls ∧
      (s.Reject u r w).2.handleCalls = w.handleCalls) := by
  rw [Approve_eq, Reject_eq]
  constructor
  · intro hs
    simp [hs]
  · intro hn
    simp [hn]

/-- C13 at `step-1` (handler) and `step-2` (no handler) of `CR`, user `alice`. -/
theorem C13_handler_invoked_once_witness :
    ((step1.Approve alice "ok" startedWorld).2.handleCalls = [⟨none, true⟩] ∧
     (step1.Reject alice "ok" startedWorld).2.handleCalls = [⟨none, false⟩]) ∧
    ((step2.Approve alice "ok" startedWorld).1 = none ∧
     (step2.Reject alice "ok" startedWorld).1 = none ∧
     (step2.Approve alice "ok" startedWorld).2.handleCalls = [] ∧
     (step2.Reject alice "ok" startedWorld).2.handleCalls = []) :=
  ⟨(C13_handler_invoked_once step1 alice "CR" "O1" "ok" startedWorld (by decide)).1 rfl,
   (C13_handler_invoked_once step2 alice "CR" "O1" "ok" startedWorld (by decide)).2 rfl⟩

/-! ## Register -/

/-- C14, as stated, fails: `Register` with an empty flow id and the step id
`step-1` used twice does not fail; it yields a flow with that id and those
steps, and `Start()` on it succeeds, handing the duplicate ids to
`EnsureFlow`. -/
theorem C14_register_accepts_bad_definition :
    (Register "" memStore [[step1], [step1]] O1).ID = "" ∧
    (Register "" memStore [[step1], [step1]] O1).steps.flatten.map Step.ID =
      ["step-1", "step-1"] ∧
    ((Register "" memStore [[step1], [step1]] O1).Start (World.fresh OrderPtr)).1 = none ∧
    ((Register "" memStore [[step1], [step1]] O1).Start (World.fresh OrderPtr)).2.storeCalls =
      [StoreCall.EnsureFlow "" "O1" ["step-1", "step-1"]] := by
  decide

/-- C14, amended: `Register` never fails and checks nothing: for every flow
id, store, stages and object, the flow it returns carries exactly that id,
that object, that store and those stages. -/
theorem C14_register_never_fails {σ T : Type} (id : String) (st : Store σ)
    (steps : List (List (Step T))) (o : T) :
    (Register id st steps o).ID = id ∧
    (Register id st steps o).Object = o ∧
    (Register id st steps o).store = st ∧
    (Register id st steps o).steps = steps :=
  ⟨rfl, rfl, rfl, rfl⟩

/-! ## Resolution of steps: instances never started, rejection, bound object -/

/-- C15, as stated, fails: no ledger exists for `CR` and `O1` on the fresh
store, yet `Approve` and `Reject` on `step-1` return nil. -/
theorem C15_unstarted_resolution_returns_nil :
    (memStore.GetSteps "CR" "O1" (World.fresh OrderPtr).store).1 = ([], some NotFound) ∧
    (step1.Approve alice "ok" (World.fresh OrderPtr)).1 = none ∧
    (step1.Reject alice "ok" (World.fresh OrderPtr)).1 = none := by
  decide

/-- C15, amended: on a step of an instance whose ledger the store reports
missing, `Approve` and `Reject` make no store call and leave the store as it
is, so the ledger is still missing afterwards; they do not look whether the
instance was started: they return the result of the handler, nil without
handler. -/
theorem C15_unstarted_resolution_creates_no_ledger {σ T : Type} [Stringer T]
    (f : Flow σ T) (s : Step T) (u : User) (r : String) (w : World σ T) (e : GoError)
    (_hs : s ∈ f.steps.flatten)
    (hmiss : (f.store.GetSteps f.ID (Stringer.String f.Object) w.store).1.2 = some e) :
    (s.Approve u r w).2.storeCalls = w.storeCalls ∧
    (s.Reject u r w).2.storeCalls = w.storeCalls ∧
    (f.store.GetSteps f.ID (Stringer.String f.Object) (s.Approve u r w).2.store).1.2 = some e ∧
    (f.store.GetSteps f.ID (Stringer.String f.Object) (s.Reject u r w).2.store).1.2 = some e ∧
    (s.Approve u r w).1 = s.Handle.bind (fun h => h s.object true) ∧
    (s.Reject u r w).1 = s.Handle.bind (fun h => h s.object false) := by
  rw [Approve_eq, Reject_eq]
  exact ⟨rfl, rfl, hmiss, hmiss, rfl, rfl⟩

/-- The amended C15 at `step-1` of `CR` for `O1` on the fresh store. -/
theorem C15_unstarted_resolution_creates_no_ledger_witness :
    (step1.Approve alice "ok" (World.fresh OrderPtr)).2.storeCalls = [] ∧
    (step1.Reject alice "ok" (World.fresh OrderPtr)).2.storeCalls = [] ∧
    (memStore.GetSteps "CR" "O1"
      (step1.Approve alice "ok" (World.fresh OrderPtr)).2.store).1.2 = some NotFound ∧
    (memStore.GetSteps "CR" "O1"
      (step1.Reject alice "ok" (World.fresh OrderPtr)).2.store).1.2 = some NotFound ∧
    (step1.Approve alice "ok" (World.fresh OrderPtr)).1 =
      step1.Handle.bind (fun h => h step1.object true) ∧
    (step1.Reject alice "ok" (World.fresh OrderPtr)).1 =
      step1.Handle.bind (fun h => h step1.object false) :=
  C15_unstarted_resolution_creates_no_ledger crO1 step1 alice "ok" (World.fresh OrderPtr)
    NotFound (List.mem_cons_self _ _) (by decide)

/-- C16, evaluated on the code: in the ledger of `CR` for `O1`, `step-1` is
done and stage 1 is the earliest unresolved stage.  `Reject` of `step-2` by
the authorized user returns nil; afterwards the store is unchanged and
`NextSteps()` returns no step, so no step of stage 0. -/
theorem C16_reject_does_not_move_back :
    (memStore.GetSteps "CR" "O1" stage1World.store).1 =
      ([⟨"step-1", "ok", true⟩, ⟨"step-2", "", false⟩, ⟨"step-3", "", false⟩,
        ⟨"step-4", "", false⟩], none) ∧
    alice.CanHandleFlowStep "CR" "step-2" "O1" = true ∧
    (step2.Reject alice "no" stage1World).1 = none ∧
    (step2.Reject alice "no" stage1World).2.store = stage1World.store ∧
    (step2.Reject alice "no" stage1World).2.storeCalls = stage1World.storeCalls ∧
    (crO1.NextSteps (step2.Reject alice "no" stage1World).2).1.map Step.ID = [] ∧
    crO1.steps.head?.map (fun ss => ss.map Step.ID) = some ["step-1"] := by
  decide

/-- C17, evaluated on the code: the instance of `CR` bound to `O1` holds the
object `O1`, but each of its steps carries the nil order; approving all of
them, and rejecting `step-1`, invokes the handlers of `step-1` and `step-3`
with the nil order, not with `O1`. -/
theorem C17_handler_receives_zero_object :
    crO1.Object = O1 ∧ O1 ≠ none ∧
    crO1.steps.flatten.map Step.object = [none, none, none, none] ∧
    (approveAll alice "ok" crO1.steps.flatten startedWorld).2.handleCalls =
      [⟨none, true⟩, ⟨none, true⟩] ∧
    (crO1.steps.flatten.head?.map
      (fun s => (s.Reject alice "no" startedWorld).2.handleCalls)) =
      some [⟨none, false⟩] := by
  decide

/-! ## InProgress and the slice of the store -/

/-- The backing array after `DeleteFunc`: the elements kept, in order, then
zero values up to the original length. -/
theorem DeleteFunc_snd {E : Type} (zero : E) (s : List E) (del : E → Bool) :
    (DeleteFunc zero s del).2 =
      s.filter (fun v => !del v) ++
        List.replicate (s.length - (s.filter (fun v => !del v)).length) zero := by
  unfold DeleteFunc
  cases h : IndexFunc s del with
  | none => simp [IndexFunc_none_filter del s h]
  | some i => simp only [IndexFunc_some_filter del s i h]

/-- C18, evaluated on the code: `InProgress()` calls only `GetSteps`, but
`slices.DeleteFunc` rewrites in place the slice the store handed over.  On
the ledger of `CR` for `O1` with `step-1` done the handed slice ends up
without the row of `step-1` and with a zero status at its end.  Over a store
that hands out its own slice, with every row of the ledger done, the first
`InProgress()` returns false and leaves four zero rows in the ledger, and
the second `InProgress()` returns true. -/
theorem C18_inProgress_rewrites_steps :
    (memStore.GetSteps "CR" "O1" stage1World.store).1 =
      ([⟨"step-1", "ok", true⟩, ⟨"step-2", "", false⟩, ⟨"step-3", "", false⟩,
        ⟨"step-4", "", false⟩], none) ∧
    (crO1.InProgress stage1World).2.storeCalls =
      stage1World.storeCalls ++ [StoreCall.GetSteps "CR" "O1"] ∧
    crO1.InProgressSteps stage1World =
      [⟨"step-2", "", false⟩, ⟨"step-3", "", false⟩, ⟨"step-4", "", false⟩,
        ⟨"", "", false⟩] ∧
    (sharedStore.GetSteps "CR" "O1" completedWorld.store).1 = (doneRows, none) ∧
    (sharedO1.InProgress completedWorld).1 = Result.returned false ∧
    (sharedO1.InProgress completedWorld).2.storeCalls =
      completedWorld.storeCalls ++ [StoreCall.GetSteps "CR" "O1"] ∧
    sharedO1.InProgressSteps completedWorld =
      [⟨"", "", false⟩, ⟨"", "", false⟩, ⟨"", "", false⟩, ⟨"", "", false⟩] ∧
    (sharedStore.GetSteps "CR" "O1" (sharedO1.InProgress completedWorld).2.store).1 =
      ([⟨"", "", false⟩, ⟨"", "", false⟩, ⟨"", "", false⟩, ⟨"", "", false⟩], none) ∧
    (sharedO1.InProgress (sharedO1.InProgress completedWorld).2).1 =
      Result.returned true := by
  decide

/-! ## The usage example -/

/-- With `NextSteps()` returning nil the loop of `handleCR` is not entered:
`handleCR` returns the "invalid step" error and leaves the world as it is. -/
theorem handleCR_eq {σ : Type} (st : Store σ) (o : OrderPtr) (stepID : String)
    (user : User) (approved : Bool) (rationale : String) (w : World σ OrderPtr) :
    handleCR st o stepID user approved rationale w =
      (some ⟨"invalid step " ++ stepID⟩, w) := rfl

/-- C19: `handleCR` returns the "invalid step" error on every input and leaves
the world as it is, and `stepID` is never the id of one of the steps
`NextSteps()` returns, `NextSteps()` returning no step at all; so the error
is returned only when `stepID` is not among them.  A step of `NextSteps()`
with that id, resolved without error by an authorized user, would make
`handleCR` return nil: there is no such step, for any input. -/
theorem C19_handleCR_invalid_step {σ : Type} (st : Store σ) (o : OrderPtr)
    (stepID : String) (user : User) (approved : Bool) (rationale : String)
    (w : World σ OrderPtr) :
    (handleCR st o stepID user approved rationale w).1 =
      some ⟨"invalid step " ++ stepID⟩ ∧
    (handleCR st o stepID user approved rationale w).2 = w ∧
    stepID ∉ ((CR st o).NextSteps w).1.map Step.ID ∧
    (∀ s ∈ ((CR st o).NextSteps w).1, s.ID = stepID →
      user.CanHandleFlowStep (CR st o).ID s.ID (Stringer.String (CR st o).Object) = true →
      (if approved then s.Approve user rationale w else s.Reject user rationale w).1 = none →
      (handleCR st o stepID user approved rationale w).1 = none) := by
  rw [handleCR_eq]
  refine ⟨rfl, rfl, ?_, ?_⟩
  · simp [Flow.NextSteps]
  · intro s hs
    simp [Flow.NextSteps] at hs

/-- C19 at `step-1` of the started instance of `CR` for `O1`, user `alice`. -/
theorem C19_handleCR_invalid_step_witness :
    (handleCR memStore O1 "step-1" alice true "ok" startedWorld).1 =
      some ⟨"invalid step " ++ "step-1"⟩ ∧
    "step-1" ∉ ((CR memStore O1).NextSteps startedWorld).1.map Step.ID :=
  ⟨(C19_handleCR_invalid_step memStore O1 "step-1" alice true "ok" startedWorld).1,
   (C19_handleCR_invalid_step memStore O1 "step-1" alice true "ok" startedWorld).2.2.1⟩

end FlowSpec
